import Mathlib

/-
Verification of the SEA-Bridge document translation service
(translation-service/app: main.py, parsers.py, translator.py).

Shallow embedding conventions:
  * Python `str` values are modelled as `List Char` (a Python string is a
    sequence of Unicode code points; Lean `Char` is a Unicode scalar value,
    which covers every value the code can construct here).
  * Python `bytes` are modelled as `List Nat` with each element < 256
    (the UTF-8 codec below treats anything ≥ 0x80 by the usual byte rules,
    and values ≥ 0xF5 are invalid lead bytes, so out-of-range elements
    simply decode as errors).
  * Network and library effects (aiohttp HEAD/GET/PUT, PyMuPDF, python-docx,
    hashlib, urllib.parse, fnmatch over ALLOWED_URL_HOSTS, time) are supplied
    as explicit oracle data in an `Env` value; the control flow that consumes
    them is translated from the source.
  * FastAPI HTTPException is modelled by the `HttpErr` error type of an
    `Except` computation.
-/

namespace SeaBridge

/-! ## parsers.py / main.py: `ext_from_name` -/

/-- Helper for `extFromName`: scan a (reversed) character list and return the
characters up to and including the first dot, or `none` when no dot occurs.
This models Python `name.rfind(".")` followed by the slice `name[dot:]`. -/
def upToDot : List Char → Option (List Char)
  | [] => none
  | c :: rest => if c = '.' then some [c] else (upToDot rest).map (fun e => c :: e)

/-- Models `ext_from_name` (main.py lines 38-41 and the identical inner helper
of `extract_text_from_bytes`, parsers.py lines 16-18):
`dot = name.rfind("."); return name[dot:].lower() if dot != -1 else ""`.
Python `str.lower` agrees with `Char.toLower` on ASCII, which is all the
allow-list comparisons ever inspect. -/
def extFromName (name : List Char) : List Char :=
  match upToDot name.reverse with
  | some e => e.reverse.map Char.toLower
  | none => []

/-! ## UTF-8 codec, modelling CPython `bytes.decode("utf-8", ...)` and
`str.encode("utf-8")`. -/

/-- Result of consuming one UTF-8 sequence from the front of a byte list. -/
inductive U8Step where
  | done : U8Step
  | char : Char → List Nat → U8Step
  | bad : List Nat → U8Step

/-- Continuation byte test: `0x80 ≤ b ≤ 0xBF`. -/
def contOk (b : Nat) : Prop := 0x80 ≤ b ∧ b ≤ 0xBF

instance (b : Nat) : Decidable (contOk b) := by unfold contOk; infer_instance

/-- Consume one UTF-8 sequence, following the CPython UTF-8 decoder: on a
malformed input the returned rest skips the maximal valid prefix of a
sequence (so each such skip is what an error handler treats as one error).
Lead bytes 0x80-0xC1 and 0xF5-0xFF are invalid; 3- and 4-byte sequences use
the restricted first-continuation ranges that exclude overlong forms,
surrogates and code points above 0x10FFFF. -/
def u8Next : List Nat → U8Step
  | [] => .done
  | b :: rest =>
    if b < 0x80 then .char (Char.ofNat b) rest
    else if b < 0xC2 then .bad rest
    else if b < 0xE0 then
      match rest with
      | b1 :: r1 =>
        if contOk b1 then .char (Char.ofNat ((b - 0xC0) * 64 + (b1 - 0x80))) r1
        else .bad rest
      | [] => .bad rest
    else if b < 0xF0 then
      let lo := if b = 0xE0 then 0xA0 else 0x80
      let hi := if b = 0xED then 0x9F else 0xBF
      match rest with
      | b1 :: r1 =>
        if lo ≤ b1 ∧ b1 ≤ hi then
          match r1 with
          | b2 :: r2 =>
            if contOk b2 then
              .char (Char.ofNat ((b - 0xE0) * 4096 + (b1 - 0x80) * 64 + (b2 - 0x80))) r2
            else .bad r1
          | [] => .bad r1
        else .bad rest
      | [] => .bad rest
    else if b < 0xF5 then
      let lo := if b = 0xF0 then 0x90 else 0x80
      let hi := if b = 0xF4 then 0x8F else 0xBF
      match rest with
      | b1 :: r1 =>
        if lo ≤ b1 ∧ b1 ≤ hi then
          match r1 with
          | b2 :: r2 =>
            if contOk b2 then
              match r2 with
              | b3 :: r3 =>
                if contOk b3 then
                  .char (Char.ofNat
                    ((b - 0xF0) * 262144 + (b1 - 0x80) * 4096 + (b2 - 0x80) * 64 + (b3 - 0x80))) r3
                else .bad r2
              | [] => .bad r2
            else .bad r1
          | [] => .bad r1
        else .bad rest
      | [] => .bad rest
    else .bad rest

/-- Fueled strict decoding loop; fuel `length + 1` always suffices because
every `u8Next` step consumes at least one byte. -/
def u8DecStrictF : Nat → List Nat → Option (List Char)
  | 0, _ => none
  | fuel + 1, bs =>
    match u8Next bs with
    | .done => some []
    | .char c rest => (u8DecStrictF fuel rest).map (fun s => c :: s)
    | .bad _ => none

/-- Fueled loop for decoding with the `ignore` error handler: malformed
sequences are dropped. -/
def u8DecIgnoreF : Nat → List Nat → List Char
  | 0, _ => []
  | fuel + 1, bs =>
    match u8Next bs with
    | .done => []
    | .char c rest => c :: u8DecIgnoreF fuel rest
    | .bad rest => u8DecIgnoreF fuel rest

/-- Fueled loop for decoding with the `replace` error handler: each malformed
sequence becomes U+FFFD. -/
def u8DecReplaceF : Nat → List Nat → List Char
  | 0, _ => []
  | fuel + 1, bs =>
    match u8Next bs with
    | .done => []
    | .char c rest => c :: u8DecReplaceF fuel rest
    | .bad rest => Char.ofNat 0xFFFD :: u8DecReplaceF fuel rest

/-- Models `data.decode("utf-8")`: `some` text on success, `none` when the
bytes are not valid UTF-8 (Python raises UnicodeDecodeError). -/
def pyDecodeStrict (bs : List Nat) : Option (List Char) :=
  u8DecStrictF (bs.length + 1) bs

/-- Models `data.decode("utf-8", errors="ignore")`: total, malformed
sequences are dropped. -/
def pyDecodeIgnore (bs : List Nat) : List Char :=
  u8DecIgnoreF (bs.length + 1) bs

/-- Models `data.decode("utf-8", errors="replace")` — the recovery the spec
describes (each malformed sequence replaced by U+FFFD).  The source does NOT
use this handler; it is defined here only to compare against the behaviour
the spec claims. -/
def pyDecodeReplace (bs : List Nat) : List Char :=
  u8DecReplaceF (bs.length + 1) bs

/-- Models `str.encode("utf-8")` for one character. -/
def utf8EncodeChar (c : Char) : List Nat :=
  let v := c.toNat
  if v < 0x80 then [v]
  else if v < 0x800 then [0xC0 + v / 64, 0x80 + v % 64]
  else if v < 0x10000 then [0xE0 + v / 4096, 0x80 + (v / 64) % 64, 0x80 + v % 64]
  else [0xF0 + v / 262144, 0x80 + (v / 4096) % 64, 0x80 + (v / 64) % 64, 0x80 + v % 64]

/-- Models `translated_text.encode("utf-8")` (main.py line 147). -/
def utf8Encode (s : List Char) : List Nat :=
  (s.map utf8EncodeChar).flatten

/-! ## parsers.py: `extract_text_from_bytes`, `choose_output_ext_and_mime` -/

/-- Availability of the optional parsing libraries plus oracles for what they
would return.  `fitzAvail` models `fitz is not None` (PyMuPDF import),
`docxAvail` models `docx is not None`; `pdfPages` models the page texts
PyMuPDF yields, `docxParas` the paragraph texts python-docx yields. -/
structure ParseEnv where
  fitzAvail : Bool
  docxAvail : Bool
  pdfPages : List Nat → List (List Char)
  docxParas : List Nat → List (List Char)

/-- Models the final `try/except UnicodeDecodeError` of
`extract_text_from_bytes` (parsers.py lines 34-37): strict UTF-8 decode,
falling back to `errors="ignore"` on failure. -/
def utf8Fallback (data : List Nat) : List Char :=
  match pyDecodeStrict data with
  | some s => s
  | none => pyDecodeIgnore data

/-- Models `extract_text_from_bytes` (parsers.py lines 15-37).  The pdf branch
fires only when the extension is `.pdf` AND `fitz` imported; the docx branch
only when the extension is `.docx` AND `docx` imported; everything else is
decoded as UTF-8 with the ignore-on-error fallback.  PDF pages are joined
with a double newline, docx paragraphs are filtered nonempty and joined with
a single newline, exactly as in the source. -/
def extract_text_from_bytes (pe : ParseEnv) (data : List Nat) (filenameHint : List Char) :
    List Char × List Char :=
  let ext := extFromName filenameHint
  if ext = ((".pdf").toList) ∧ pe.fitzAvail then
    (List.intercalate (("\n\n").toList) (pe.pdfPages data), ext)
  else if ext = ((".docx").toList) ∧ pe.docxAvail then
    (List.intercalate (("\n").toList) ((pe.docxParas data).filter (fun p => p ≠ [])), ext)
  else
    (utf8Fallback data, ext)

/-- Models `choose_output_ext_and_mime` (parsers.py lines 40-43). -/
def choose_output_ext_and_mime (preserve_format : List Char) : List Char × List Char :=
  if preserve_format = (("markdown").toList) then (((".md").toList), (("text/markdown").toList))
  else (((".txt").toList), (("text/plain").toList))

/-! ## translator.py: the chunker -/

/-- Models `overlap = int(n * 0.05)` (translator.py line 35).  For every `n`
in the representable range the float product `n * 0.05` truncates to exactly
`n / 20 = n * 5 / 100` (the relative error of the nearest double to 0.05 is
below half an ulp throughout), so the integer form is used. -/
def chunkOverlap (n : Nat) : Nat := n * 5 / 100

/-- Stride between consecutive window start offsets: `n - overlap`. -/
def chunkStride (n : Nat) : Nat := n - chunkOverlap n

/-- Python slice `text[i : i + n]` for natural `i`, `n`. -/
def pySliceFrom (text : List Char) (i n : Nat) : List Char :=
  (text.drop i).take n

/-- Models the `while i < len(text)` loop of `_chunks` (translator.py lines
36-38).  The loop variable advances by the stride `s` each iteration; `fuel`
makes the recursion structural — with `s ≥ 1` the loop runs at most
`len(text)` times, so the fuel `len(text) + 1` used below is never exhausted.
(With `n = 0` the Python loop would not terminate; every claim about the
chunker restricts to a positive budget.) -/
def chunksLoop (text : List Char) (n s : Nat) : Nat → Nat → List (List Char)
  | _, 0 => []
  | i, fuel + 1 =>
    if i < text.length then pySliceFrom text i n :: chunksLoop text n s (i + s) fuel
    else []

/-- Models `BedrockSeaLionTranslator._chunks` (translator.py lines 29-39) with
the chunk budget `n` (`self.chunk_chars`) made explicit. -/
def pyChunks (n : Nat) (text : List Char) : List (List Char) :=
  if text.length ≤ n then [text]
  else chunksLoop text n (chunkStride n) 0 (text.length + 1)

/-! ## Chunker lemmas -/

theorem chunkOverlap_mul_le (n : Nat) : chunkOverlap n * 100 ≤ n * 5 :=
  Nat.div_mul_le_self _ _

theorem chunkOverlap_lt (n : Nat) (hn : 0 < n) : chunkOverlap n < n := by
  have h := chunkOverlap_mul_le n
  omega

theorem chunkStride_pos (n : Nat) (hn : 0 < n) : 0 < chunkStride n := by
  have h := chunkOverlap_lt n hn
  unfold chunkStride
  omega

theorem chunkStride_le (n : Nat) : chunkStride n ≤ n :=
  Nat.sub_le _ _

/-- Closed form of the chunking loop: starting at offset `i` with stride
`s ≥ 1` and enough fuel, the loop produces the slices at offsets
`i, i + s, i + 2s, ...`, one for each of the `⌈(len - i) / s⌉` offsets that
are below `len`. -/
theorem chunksLoop_eq (text : List Char) (n s : Nat) (hs : 0 < s) :
    ∀ fuel i, (text.length - i + s - 1) / s ≤ fuel →
      chunksLoop text n s i fuel =
        (List.range ((text.length - i + s - 1) / s)).map
          (fun k => pySliceFrom text (i + k * s) n) := by
  intro fuel
  induction fuel with
  | zero =>
    intro i h
    have h0 : (text.length - i + s - 1) / s = 0 := Nat.le_zero.mp h
    simp [chunksLoop, h0]
  | succ fuel ih =>
    intro i h
    by_cases hi : i < text.length
    · have hd : 1 ≤ text.length - i := by omega
      have hnum : text.length - i + s - 1 = (text.length - i - 1) + s := by omega
      have hN : (text.length - i + s - 1) / s = (text.length - i - 1) / s + 1 := by
        rw [hnum, Nat.add_div_right _ hs]
      have hnext : (text.length - (i + s) + s - 1) / s = (text.length - i - 1) / s := by
        rcases le_or_lt (text.length - i) s with hle | hlt
        · have h1 : text.length - (i + s) = 0 := by omega
          rw [h1]
          rw [Nat.div_eq_of_lt (by omega), Nat.div_eq_of_lt (by omega)]
        · have h2 : text.length - (i + s) + s - 1 = text.length - i - 1 := by omega
          rw [h2]
      have hfuel : (text.length - (i + s) + s - 1) / s ≤ fuel := by
        rw [hnext]; omega
      have htail := ih (i + s) hfuel
      simp only [chunksLoop, hi, if_true]
      rw [hN, List.range_succ_eq_map, List.map_cons, List.map_map, htail, hnext]
      congr 1
      · simp
      · apply List.map_congr_left
        intro k _
        simp only [Function.comp, Nat.succ_eq_add_one]
        have harith : i + s + k * s = i + (k + 1) * s := by ring
        rw [harith]
    · have h0 : text.length - i = 0 := by omega
      have hz : (text.length - i + s - 1) / s = 0 := by
        rw [h0]; exact Nat.div_eq_of_lt (by omega)
      simp [chunksLoop, hi, hz]

/-- C3 (amended): for a positive budget `n` and stride
`s = n - ⌊0.05 n⌋`, a text of length ≤ `n` yields the single chunk
`[text]`; a longer text yields exactly the windows `text[k*s : k*s + n]` for
`k = 0, 1, ...` while `k*s < len` (that is `⌈len / s⌉` windows); every
character position is covered by some window; and every window except
possibly the last two has full length `n`.  (Determinism is immediate:
`pyChunks` is a function of `(text, n)`.)  The claim as frozen also asserted
that only the LAST window may be shorter than `n`; that is refuted by
`C3_chunker_counterexample` below, and the bound proved here — all but the
last two — is tight there. -/
theorem C3_chunker_windows (text : List Char) (n : Nat) (hn : 0 < n) :
    (text.length ≤ n → pyChunks n text = [text]) ∧
    (n < text.length →
      pyChunks n text =
        (List.range ((text.length + chunkStride n - 1) / chunkStride n)).map
          (fun k => pySliceFrom text (k * chunkStride n) n) ∧
      (∀ j, j < text.length →
        ∃ k, k < (text.length + chunkStride n - 1) / chunkStride n ∧
          k * chunkStride n ≤ j ∧ j < k * chunkStride n + n) ∧
      (∀ k, k + 2 < (text.length + chunkStride n - 1) / chunkStride n →
        (pySliceFrom text (k * chunkStride n) n).length = n)) := by
  have hs : 0 < chunkStride n := chunkStride_pos n hn
  have hsn : chunkStride n ≤ n := chunkStride_le n
  constructor
  · intro hle
    simp [pyChunks, hle]
  · intro hlt
    set s := chunkStride n with hs_def
    set L := text.length with hL_def
    have hL1 : 1 ≤ L := by omega
    have hnum : L - 0 + s - 1 = (L - 1) + s := by omega
    have hN : (L - 0 + s - 1) / s = (L - 1) / s + 1 := by
      rw [hnum, Nat.add_div_right _ hs]
    have hN' : (L + s - 1) / s = (L - 1) / s + 1 := by
      have : L + s - 1 = (L - 1) + s := by omega
      rw [this, Nat.add_div_right _ hs]
    have hfuel : (L - 0 + s - 1) / s ≤ L + 1 := by
      rw [hN]
      have := Nat.div_le_self (L - 1) s
      omega
    have hmain : pyChunks n text =
        (List.range ((L + s - 1) / s)).map (fun k => pySliceFrom text (k * s) n) := by
      rw [pyChunks, if_neg (by omega)]
      rw [chunksLoop_eq text n s hs (L + 1) 0 hfuel]
      rw [hN, hN']
      apply List.map_congr_left
      intro k _
      simp
    refine ⟨hmain, ?_, ?_⟩
    · intro j hj
      refine ⟨j / s, ?_, ?_, ?_⟩
      · rw [hN']
        have : j / s ≤ (L - 1) / s := Nat.div_le_div_right (by omega)
        omega
      · exact Nat.div_mul_le_self j s
      · have hmod := Nat.div_add_mod j s
        have hms : j % s < s := Nat.mod_lt j hs
        have hcomm : j / s * s = s * (j / s) := Nat.mul_comm _ _
        omega
    · intro k hk
      rw [hN'] at hk
      have hk2 : k + 2 ≤ (L - 1) / s := by omega
      have hmul : (k + 2) * s ≤ (L - 1) / s * s := Nat.mul_le_mul_right s hk2
      have hdm : (L - 1) / s * s ≤ L - 1 := Nat.div_mul_le_self _ _
      have hexp : (k + 2) * s = k * s + 2 * s := by ring
      have hov := chunkOverlap_mul_le n
      have hov_le : chunkOverlap n ≤ n := by omega
      have hsval : s = n - chunkOverlap n := hs_def
      have hbound : k * s + n ≤ L := by omega
      simp only [pySliceFrom, List.length_take, List.length_drop]
      omega

set_option maxRecDepth 4000 in
/-- Counterexample to C3 as frozen: with budget `n = 100` (stride 95) and a
192-character text, the chunk lengths are `[100, 97, 2]` — the SECOND
window, which is not the last of the three, is already shorter than `n`, so
"only the last window may be shorter than n" is false. -/
theorem C3_chunker_counterexample :
    (pyChunks 100 (List.replicate 192 'a')).map List.length = [100, 97, 2] ∧
    1 + 1 < (pyChunks 100 (List.replicate 192 'a')).length ∧
    ((pyChunks 100 (List.replicate 192 'a')).getD 1 []).length < 100 := by
  refine ⟨?_, ?_, ?_⟩ <;> decide

/-- Witness for `C3_chunker_windows` at the concrete budget 3 and the
8-character text "abcdefgh" (stride 3, windows "abc", "def", "gh"). -/
theorem C3_chunker_windows_witness :
    (0 < 3) ∧
    (3 < (("abcdefgh").toList).length →
      pyChunks 3 (("abcdefgh").toList) =
        (List.range (((("abcdefgh").toList).length + chunkStride 3 - 1) / chunkStride 3)).map
          (fun k => pySliceFrom (("abcdefgh").toList) (k * chunkStride 3) 3) ∧
      (∀ j, j < (("abcdefgh").toList).length →
        ∃ k, k < ((("abcdefgh").toList).length + chunkStride 3 - 1) / chunkStride 3 ∧
          k * chunkStride 3 ≤ j ∧ j < k * chunkStride 3 + 3) ∧
      (∀ k, k + 2 < ((("abcdefgh").toList).length + chunkStride 3 - 1) / chunkStride 3 →
        (pySliceFrom (("abcdefgh").toList) (k * chunkStride 3) 3).length = 3)) :=
  ⟨by decide, (C3_chunker_windows (("abcdefgh").toList) 3 (by decide)).2⟩

/-! ## translator.py: translation backends -/

/-- Models `PassThroughTranslator.translate` (translator.py lines 77-79):
returns the text argument unchanged. -/
def passThroughTranslate (text target_lang : List Char) (source_lang : Option (List Char))
    (preserve_format : List Char) : List Char :=
  text

/-- The fixed system instruction of `BedrockSeaLionTranslator.translate`
(translator.py lines 42-49). -/
def bedrockSystemBase : List Char :=
  (("You are a professional translator specializing in Southeast Asian languages. Translate the following document into the requested target language. CRITICAL: Preserve ALL formatting, structure, and special characters. Maintain names, dates, times, and monetary amounts exactly as they appear. If the input is Markdown, keep all Markdown formatting intact. Do not add any explanations or commentary - only provide the translation.").toList)

/-- Models the optional source-language suffix (translator.py lines 50-51):
appended only when `source_lang` is truthy. -/
def bedrockSystem (source_lang : Option (List Char)) : List Char :=
  match source_lang with
  | some s =>
    if s ≠ [] then bedrockSystemBase ++ ((" The source language is ").toList) ++ s ++ (((".").toList))
    else bedrockSystemBase
  | none => bedrockSystemBase

/-- Models the per-chunk prompt f-string (translator.py line 55); `idx` is the
1-based chunk index from `enumerate(..., start=1)`. -/
def bedrockPrompt (system target_lang preserve_format : List Char) (idx : Nat)
    (chunk : List Char) : List Char :=
  (("System: ").toList) ++ system ++ (("\n\nTarget language: ").toList) ++ target_lang
    ++ (("\nReturn format: ").toList)
    ++ (if preserve_format = (("markdown").toList) then (("Markdown").toList)
        else (("Plain text").toList))
    ++ (("\n\nText chunk ").toList) ++ (toString idx).toList ++ ((" to translate:\n").toList)
    ++ chunk ++ (("\n\nTranslation:").toList)

/-- Models `BedrockSeaLionTranslator.translate` (translator.py lines 41-59)
with the model invocation `self._ainvoke` abstracted as the oracle `invoke`:
one task per chunk, results joined with newline separators.
`asyncio.gather` returns results in the order its argument tasks were
created, i.e. in chunk-index order, which is what the plain `map` states. -/
def bedrockTranslate (invoke : List Char → List Char) (chunk_chars : Nat)
    (text target_lang : List Char) (source_lang : Option (List Char))
    (preserve_format : List Char) : List Char :=
  List.intercalate (("\n").toList)
    ((pyChunks chunk_chars text).enum.map
      (fun p => invoke
        (bedrockPrompt (bedrockSystem source_lang) target_lang preserve_format (p.1 + 1) p.2)))

/-- Completion-order model of `asyncio.gather`: the per-chunk results are
written into a result table keyed by chunk index, in an arbitrary completion
order `order`; slots never completed stay `none`. -/
def gatherByIndex (tasks : List (List Char)) (order : List Nat) : List (Option (List Char)) :=
  order.foldl (fun acc i => acc.set i (some (tasks.getD i []))) (List.replicate tasks.length none)

/-- Models `BedrockSeaLionTranslator.translate` where the `N` concurrent
invocations complete in the arbitrary order `order` and are collected by
chunk index before the newline join. -/
def bedrockTranslateSched (invoke : List Char → List Char) (chunk_chars : Nat)
    (text target_lang : List Char) (source_lang : Option (List Char))
    (preserve_format : List Char) (order : List Nat) : List Char :=
  List.intercalate (("\n").toList)
    ((gatherByIndex
        ((pyChunks chunk_chars text).enum.map
          (fun p => invoke
            (bedrockPrompt (bedrockSystem source_lang) target_lang preserve_format
              (p.1 + 1) p.2)))
        order).map (fun o => o.getD []))

theorem setFold_getElem? {α : Type} (f : Nat → α) :
    ∀ (order : List Nat) (acc : List α) (j : Nat),
      (order.foldl (fun a i => a.set i (f i)) acc)[j]? =
        if j ∈ order ∧ j < acc.length then some (f j) else acc[j]? := by
  intro order
  induction order with
  | nil => intro acc j; simp
  | cons i rest ih =>
    intro acc j
    rw [List.foldl_cons, ih, List.length_set]
    by_cases hmem : j ∈ rest ∧ j < acc.length
    · rw [if_pos hmem, if_pos ⟨List.mem_cons_of_mem i hmem.1, hmem.2⟩]
    · rw [if_neg hmem, List.getElem?_set]
      by_cases hij : i = j
      · subst hij
        by_cases hlen : i < acc.length
        · rw [if_pos rfl, if_pos hlen, if_pos ⟨List.mem_cons_self i rest, hlen⟩]
        · rw [if_pos rfl, if_neg hlen, if_neg (by tauto), List.getElem?_eq_none (by omega)]
      · rw [if_neg hij]
        have : ¬ (j ∈ i :: rest ∧ j < acc.length) := by
          intro ⟨hj, hl⟩
          rcases List.mem_cons.mp hj with h | h
          · exact hij h.symm
          · exact hmem ⟨h, hl⟩
        rw [if_neg this]

/-- If every task index appears in the completion order, the gathered table
read back in index order is exactly the task list. -/
theorem gatherByIndex_eq (tasks : List (List Char)) (order : List Nat)
    (hcov : ∀ i, i < tasks.length → i ∈ order) :
    (gatherByIndex tasks order).map (fun o => o.getD []) = tasks := by
  apply List.ext_getElem?
  intro j
  rw [List.getElem?_map, gatherByIndex,
    setFold_getElem? (fun i => some (tasks.getD i []))]
  by_cases hj : j < tasks.length
  · rw [if_pos (by simpa using ⟨hcov j hj, hj⟩)]
    simp [List.getD_eq_getElem?_getD, List.getElem?_eq_getElem hj]
  · rw [if_neg (by simp only [List.length_replicate]; exact fun h => hj h.2)]
    have h1 : (List.replicate tasks.length (none : Option (List Char)))[j]? = none :=
      List.getElem?_eq_none (by simp only [List.length_replicate]; omega)
    have h2 : tasks[j]? = none := List.getElem?_eq_none (by omega)
    rw [h1, h2]
    rfl

/-- C4: however the `N` concurrent model invocations complete (any completion
order that covers every chunk index), the LLM-backed translate equals the
per-chunk translations joined with newline separators in original
chunk-index order. -/
theorem C4_translate_join_order (invoke : List Char → List Char) (chunk_chars : Nat)
    (text target_lang : List Char) (source_lang : Option (List Char))
    (preserve_format : List Char) (order : List Nat)
    (hcov : ∀ i, i < (pyChunks chunk_chars text).length → i ∈ order) :
    bedrockTranslateSched invoke chunk_chars text target_lang source_lang preserve_format order
      = List.intercalate (("\n").toList)
          ((pyChunks chunk_chars text).enum.map
            (fun p => invoke
              (bedrockPrompt (bedrockSystem source_lang) target_lang preserve_format
                (p.1 + 1) p.2))) ∧
    bedrockTranslateSched invoke chunk_chars text target_lang source_lang preserve_format order
      = bedrockTranslate invoke chunk_chars text target_lang source_lang preserve_format := by
  have hmain :
      bedrockTranslateSched invoke chunk_chars text target_lang source_lang preserve_format order
        = bedrockTranslate invoke chunk_chars text target_lang source_lang preserve_format := by
    unfold bedrockTranslateSched bedrockTranslate
    congr 1
    apply gatherByIndex_eq
    intro i hi
    apply hcov
    simpa using hi
  exact ⟨hmain, hmain⟩

/-- Witness for `C4_translate_join_order`: two chunks completing in reversed
order `[1, 0]` still join in chunk order. -/
theorem C4_translate_join_order_witness :
    bedrockTranslateSched (fun p => p) 1 (("ab").toList) (("vi").toList) none
        (("markdown").toList) [1, 0]
      = List.intercalate (("\n").toList)
          ((pyChunks 1 (("ab").toList)).enum.map
            (fun p => (fun q => q)
              (bedrockPrompt (bedrockSystem none) (("vi").toList) (("markdown").toList)
                (p.1 + 1) p.2))) ∧
    bedrockTranslateSched (fun p => p) 1 (("ab").toList) (("vi").toList) none
        (("markdown").toList) [1, 0]
      = bedrockTranslate (fun p => p) 1 (("ab").toList) (("vi").toList) none
        (("markdown").toList) :=
  C4_translate_join_order (fun p => p) 1 (("ab").toList) (("vi").toList) none
    (("markdown").toList) [1, 0] (by decide)

/-- C8: the pass-through backend returns its text argument unchanged for
every combination of target language, optional source language and
preserve-format flag. -/
theorem C8_passthrough_identity (text target_lang : List Char)
    (source_lang : Option (List Char)) (preserve_format : List Char) :
    passThroughTranslate text target_lang source_lang preserve_format = text :=
  rfl

/-! ## main.py: the request pipeline `translate_file` -/

/-- Models FastAPI HTTPException: status code plus detail string. -/
structure HttpErr where
  code : Nat
  detail : List Char
deriving DecidableEq

instance {ε α : Type} [DecidableEq ε] [DecidableEq α] : DecidableEq (Except ε α)
  | .ok a, .ok b => decidable_of_iff (a = b) (by simp)
  | .error a, .error b => decidable_of_iff (a = b) (by simp)
  | .ok _, .error _ => isFalse (by simp)
  | .error _, .ok _ => isFalse (by simp)

/-- Configuration read from the environment at module load
(main.py lines 19-20): the shared API key and the byte ceiling
`MAX_BYTES` (default 50 MiB). -/
structure Config where
  apiKey : List Char
  maxBytes : Nat

/-- Models a FastAPI UploadFile: an optional multipart filename and the
bytes `await file.read()` yields. -/
structure UploadFile where
  filename : Option (List Char)
  content : List Nat
deriving DecidableEq

/-- The form fields of `POST /v1/translate-file` (main.py lines 94-104).
`none` models an absent optional field. -/
structure Req where
  authorization : Option (List Char)
  file_url : Option (List Char)
  output_url : Option (List Char)
  file : Option UploadFile
  target_lang : List Char
  source_lang : Option (List Char)
  preserve_format : List Char
  return_mode : List Char
  integrity_sha256 : Option (List Char)

/-- External effects, as oracle data fixed for the one request under study:
`hostAllowed` models `host_allowed` (fnmatch of the URL hostname against
`ALLOWED_URL_HOSTS`); `urlTailSeg` models
`urlparse(url).path.split("/")[-1]`; `headSize` the Content-Length the HEAD
probe reports (`none` when the probe fails or the header is absent);
`getStatus`/`getChunks`/`getText` the GET response used by `fetch_bytes`;
`putStatus`/`putText` the PUT response used by `put_bytes`; `nowMs` the
clock for the job id; `sha256Hex` the hex digest function; `parse` the
parsing-library environment of `extract_text_from_bytes`. -/
structure Env where
  hostAllowed : List Char → Bool
  urlTailSeg : List Char → List Char
  headSize : Option Nat
  getStatus : Nat
  getChunks : List (List Nat)
  getText : List Char
  putStatus : Nat
  putText : List Char
  nowMs : Nat
  sha256Hex : List Nat → List Char
  parse : ParseEnv

/-- Python truthiness of an optional string: `None` and the empty string are
falsy. -/
def optTruthy : Option (List Char) → Bool
  | none => false
  | some s => !s.isEmpty

/-- Models `ensure_auth` (main.py lines 30-35): 401 unless the header is
present and starts with the bearer marker, 403 unless the token after the
first space equals the configured key.  Because the header starts with the
7-character marker, Python `split(" ", 1)[1]` is exactly `drop 7`. -/
def ensure_auth (apiKey : List Char) (auth_header : Option (List Char)) : Except HttpErr Unit :=
  match auth_header with
  | none => .error ⟨401, (("Missing bearer token").toList)⟩
  | some s =>
    if (("Bearer ").toList).isPrefixOf s then
      if s.drop 7 = apiKey then .ok () else .error ⟨403, (("Invalid token").toList)⟩
    else .error ⟨401, (("Missing bearer token").toList)⟩

/-- Models the allow-list `ALLOWED_EXTS` (main.py line 21). -/
def ALLOWED_EXTS : List (List Char) :=
  [((".pdf").toList), ((".txt").toList), ((".md").toList), ((".rtf").toList),
   ((".html").toList), ((".htm").toList), ((".docx").toList)]

/-- Models the streaming loop of `fetch_bytes` (main.py lines 63-75): add
each chunk length to the running total, raise 413 the moment the total
exceeds the ceiling, otherwise accumulate and finally join. -/
def fetchLoop (maxBytes : Nat) : List (List Nat) → Nat → Except HttpErr (List Nat)
  | [], _ => .ok []
  | c :: cs, read =>
    if read + c.length > maxBytes then .error ⟨413, (("File too large").toList)⟩
    else
      match fetchLoop maxBytes cs (read + c.length) with
      | .ok rest => .ok (c ++ rest)
      | .error e => .error e

/-- Models `fetch_bytes` (main.py lines 60-75): reject a disallowed host,
reject a non-200 GET, otherwise run the streaming loop from a zero total. -/
def fetch_bytes (env : Env) (maxBytes : Nat) (url : List Char) : Except HttpErr (List Nat) :=
  if env.hostAllowed url then
    if env.getStatus = 200 then fetchLoop maxBytes env.getChunks 0
    else .error ⟨400, (("Failed to fetch file: ").toList) ++ (toString env.getStatus).toList
      ++ ((" ").toList) ++ env.getText⟩
  else .error ⟨400, (("URL host not allowed").toList)⟩

/-- Models `put_bytes` (main.py lines 78-85).  The uploaded data and content
type do not influence the modelled outcome but are kept for fidelity. -/
def put_bytes (env : Env) (url : List Char) (data : List Nat) (content_type : List Char) :
    Except HttpErr Unit :=
  if env.hostAllowed url then
    if env.putStatus = 200 ∨ env.putStatus = 201 ∨ env.putStatus = 204 then .ok ()
    else .error ⟨400, (("Failed to upload to output_url: ").toList)
      ++ (toString env.putStatus).toList ++ ((" ").toList) ++ env.putText⟩
  else .error ⟨400, (("Output URL host not allowed").toList)⟩

/-- Models the filename resolution (main.py lines 110-112): the upload
filename when the upload is present and its filename is truthy, else the
last path segment of a truthy `file_url`, else the literal `file`. -/
def resolveFilename (env : Env) (req : Req) : List Char :=
  match req.file with
  | some f =>
    match f.filename with
    | some fn =>
      if fn ≠ [] then fn
      else match req.file_url with
        | some u => if u ≠ [] then env.urlTailSeg u else (("file").toList)
        | none => (("file").toList)
    | none =>
      match req.file_url with
      | some u => if u ≠ [] then env.urlTailSeg u else (("file").toList)
      | none => (("file").toList)
  | none =>
    match req.file_url with
    | some u => if u ≠ [] then env.urlTailSeg u else (("file").toList)
    | none => (("file").toList)

/-- Models the `if file_url:` pre-checks (main.py lines 118-123): host
allow-list, then rejection when the HEAD probe declared a truthy size above
the ceiling. -/
def urlPreChecks (cfg : Config) (env : Env) (file_url : Option (List Char)) :
    Except HttpErr Unit :=
  match file_url with
  | some u =>
    if u ≠ [] then
      if env.hostAllowed u then
        match env.headSize with
        | some sz =>
          if sz ≠ 0 ∧ sz > cfg.maxBytes then .error ⟨413, (("File too large").toList)⟩
          else .ok ()
        | none => .ok ()
      else .error ⟨400, (("URL host not allowed").toList)⟩
    else .ok ()
  | none => .ok ()

/-- Models the sourcing step (main.py lines 125-130): inline bytes with the
ceiling check when an upload is present, otherwise a GET via `fetch_bytes`.
(When no upload is present the earlier neither-source check guarantees the
URL is truthy, so the `getD` default is never reached.) -/
def sourceBytes (cfg : Config) (env : Env) (req : Req) : Except HttpErr (List Nat) :=
  match req.file with
  | some f =>
    if f.content.length > cfg.maxBytes then .error ⟨413, (("File too large").toList)⟩
    else .ok f.content
  | none => fetch_bytes env cfg.maxBytes ((req.file_url).getD [])

/-- Models the integrity gate (main.py lines 132-133): when a truthy digest
was supplied, reject unless the hex digest of the sourced bytes equals the
supplied digest lowercased. -/
def integrityCheck (env : Env) (req : Req) (raw : List Nat) : Except HttpErr Unit :=
  match req.integrity_sha256 with
  | some h =>
    if h ≠ [] ∧ env.sha256Hex raw ≠ h.map Char.toLower then
      .error ⟨400, (("Integrity hash mismatch").toList)⟩
    else .ok ()
  | none => .ok ()

/-- Models the inner `do_work` closure (main.py lines 137-150): extract,
choose output extension and MIME from `preserve_format`, translate, derive
the output name, encode, optionally PUT to a truthy `output_url`. -/
def do_work (cfg : Config) (env : Env)
    (tr : List Char → List Char → Option (List Char) → List Char → List Char)
    (req : Req) (raw : List Nat) (filename : List Char) :
    Except HttpErr (List Nat × List Char × List Char) :=
  let text := (extract_text_from_bytes env.parse raw filename).1
  let outExt := (choose_output_ext_and_mime req.preserve_format).1
  let outMime := (choose_output_ext_and_mime req.preserve_format).2
  let translated := tr text req.target_lang req.source_lang req.preserve_format
  let outName := filename ++ ((".translated").toList) ++ outExt
  let outBytes := utf8Encode translated
  match req.output_url with
  | some u =>
    if u ≠ [] then
      match put_bytes env u outBytes outMime with
      | .ok _ => .ok (outBytes, outMime, outName)
      | .error e => .error e
    else .ok (outBytes, outMime, outName)
  | none => .ok (outBytes, outMime, outName)

/-- The three response shapes of a successful request (main.py lines
152-161): the queued JSON of async mode, the delivery JSON of sync mode
with an output URL, and the streamed attachment otherwise (`filename` is
the attachment name of the Content-Disposition header). -/
inductive Resp where
  | queued (jobId : List Char)
  | delivered (outputUrl filename mime : List Char)
  | stream (body : List Nat) (mime filename : List Char)
deriving DecidableEq

/-- Models the `translate_file` endpoint (main.py lines 93-161), with the
translator `tr` supplied explicitly (the source selects it via
`get_translator()`).  In async mode the source schedules `do_work` as a
fire-and-forget task and answers `queued` regardless of its outcome, so the
model returns the queued response without consulting `do_work`. -/
def translate_file (cfg : Config) (env : Env)
    (tr : List Char → List Char → Option (List Char) → List Char → List Char)
    (req : Req) : Except HttpErr Resp :=
  match ensure_auth cfg.apiKey req.authorization with
  | .error e => .error e
  | .ok _ =>
    if ¬ optTruthy req.file_url ∧ req.file = none then
      .error ⟨400, (("Provide file_url or multipart file").toList)⟩
    else
      let filename := resolveFilename env req
      let ext := extFromName filename
      if ext ≠ [] ∧ ext ∉ ALLOWED_EXTS then
        .error ⟨415, (("Unsupported file type: ").toList) ++ ext⟩
      else
        match urlPreChecks cfg env req.file_url with
        | .error e => .error e
        | .ok _ =>
          match sourceBytes cfg env req with
          | .error e => .error e
          | .ok raw =>
            match integrityCheck env req raw with
            | .error e => .error e
            | .ok _ =>
              if req.return_mode = (("async").toList) then
                .ok (.queued ((toString env.nowMs).toList))
              else
                match do_work cfg env tr req raw filename with
                | .error e => .error e
                | .ok (outBytes, outMime, outName) =>
                  match req.output_url with
                  | some u =>
                    if u ≠ [] then .ok (.delivered u outName outMime)
                    else .ok (.stream outBytes outMime outName)
                  | none => .ok (.stream outBytes outMime outName)

/-! ## Concrete fixtures used by counterexamples and witnesses -/

/-- The default configuration: `TRANSLATE_API_KEY=devkey`,
`MAX_FILE_BYTES` = 50 MiB (main.py lines 19-20). -/
def cfgD : Config := ⟨(("devkey").toList), 50 * 1024 * 1024⟩

/-- A benign environment: every host allowed, HEAD reports no size, GET
returns 200 with an empty body, PUT succeeds, neither parsing library is
importable, and the URL path tail parses to `doc.txt`. -/
def envD : Env :=
  { hostAllowed := fun _ => true
    urlTailSeg := fun _ => (("doc.txt").toList)
    headSize := none
    getStatus := 200
    getChunks := []
    getText := []
    putStatus := 200
    putText := []
    nowMs := 0
    sha256Hex := fun _ => []
    parse := ⟨false, false, fun _ => [], fun _ => []⟩ }

/-- The end-to-end scenario of the spec: upload `hello.txt` containing
`Hello world`, target `vi`, sync mode, no output URL, `preserve_format`
left at its FastAPI default `markdown` (main.py line 101). -/
def reqC6 : Req :=
  { authorization := some (("Bearer devkey").toList)
    file_url := none
    output_url := none
    file := some ⟨some (("hello.txt").toList), utf8Encode (("Hello world").toList)⟩
    target_lang := (("vi").toList)
    source_lang := none
    preserve_format := (("markdown").toList)
    return_mode := (("sync").toList)
    integrity_sha256 := none }

/-- The same request with BOTH an inline upload and a remote URL. -/
def reqBoth : Req :=
  { reqC6 with file_url := some (("https://s3.amazonaws.com/x/doc.txt").toList) }

/-- Both sources supplied, but the upload carries no multipart filename. -/
def reqNoName : Req :=
  { reqBoth with file := some ⟨none, utf8Encode (("Hello world").toList)⟩ }

/-! ## C6: the hello.txt end-to-end scenario -/

/-- Counterexample to C6 as frozen: running the scenario (default
`preserve_format = markdown`) does succeed with body `Hello world`, but the
MIME type is `text/markdown` and the attachment name is
`hello.txt.translated.md` — not `text/plain` / `hello.txt.translated.txt`
as the claim (and spec section 8) state, because
`choose_output_ext_and_mime "markdown"` returns the Markdown pair. -/
theorem C6_scenario_counterexample :
    translate_file cfgD envD passThroughTranslate reqC6 =
      .ok (.stream (utf8Encode (("Hello world").toList)) (("text/markdown").toList)
        (("hello.txt.translated.md").toList)) ∧
    ¬ (("text/markdown").toList) = (("text/plain").toList) ∧
    ¬ (("hello.txt.translated.md").toList) = (("hello.txt.translated.txt").toList) := by
  refine ⟨?_, ?_, ?_⟩ <;> decide

/-- C6 (amended): the scenario yields a 200 stream whose body is exactly the
`Hello world` bytes, with Content-Type `text/markdown` and attachment
filename `hello.txt.translated.md` (the defaulted `preserve_format`
is `markdown`, so the Markdown extension/MIME pair applies). -/
theorem C6_scenario :
    translate_file cfgD envD passThroughTranslate reqC6 =
      .ok (.stream (utf8Encode (("Hello world").toList)) (("text/markdown").toList)
        (("hello.txt.translated.md").toList)) := by
  decide

/-! ## C2: missing parser capability -/

/-- Counterexample to C2 as frozen: with the PDF library unavailable, a
`.pdf`-named input does NOT fail fast — the bytes `hi` are decoded as UTF-8
text and extraction succeeds with that raw decode. -/
theorem C2_missing_parser_counterexample :
    extract_text_from_bytes ⟨false, false, fun _ => [], fun _ => []⟩ [104, 105]
      (("x.pdf").toList) = ((("hi").toList), ((".pdf").toList)) ∧
    pyDecodeStrict [104, 105] = some (("hi").toList) := by
  refine ⟨?_, ?_⟩ <;> decide

/-- C2 (amended): when the required parsing library is unavailable, a
`.pdf` (resp. `.docx`) input is NOT treated as unsupported; extraction
silently degrades to the raw-byte UTF-8 decode (with the ignore-on-error
fallback), exactly as for plain text. -/
theorem C2_missing_parser_fallback (pe : ParseEnv) (data : List Nat) (hint : List Char) :
    (pe.fitzAvail = false → extFromName hint = ((".pdf").toList) →
      extract_text_from_bytes pe data hint = (utf8Fallback data, ((".pdf").toList))) ∧
    (pe.docxAvail = false → extFromName hint = ((".docx").toList) →
      extract_text_from_bytes pe data hint = (utf8Fallback data, ((".docx").toList))) := by
  constructor
  · intro hfitz hext
    unfold extract_text_from_bytes
    rw [hext]
    rw [if_neg (by simp [hfitz])]
    rw [if_neg (by simp)]
  · intro hdocx hext
    unfold extract_text_from_bytes
    rw [hext]
    rw [if_neg (by simp)]
    rw [if_neg (by simp [hdocx])]

/-- Witness for `C2_missing_parser_fallback`: the PDF part at the concrete
input of the counterexample. -/
theorem C2_missing_parser_fallback_witness :
    extract_text_from_bytes ⟨false, false, fun _ => [], fun _ => []⟩ [104, 105]
      (("x.pdf").toList) = (utf8Fallback [104, 105], ((".pdf").toList)) :=
  (C2_missing_parser_fallback ⟨false, false, fun _ => [], fun _ => []⟩ [104, 105]
    (("x.pdf").toList)).1 rfl (by decide)

/-! ## C7: plain-text decode fallback -/

/-- Counterexample to C7 as frozen: on the bytes `FF 41` with a `.txt` name,
strict decoding fails and the code retries with `errors="ignore"`, which
DROPS the invalid byte — the result is `A`.  The replacing recovery the
claim describes would instead produce U+FFFD followed by `A`, which differs
from what the code returns. -/
theorem C7_ignore_counterexample :
    extract_text_from_bytes ⟨true, true, fun _ => [], fun _ => []⟩ [255, 65]
      (("a.txt").toList) = ((("A").toList), ((".txt").toList)) ∧
    pyDecodeStrict [255, 65] = none ∧
    pyDecodeReplace [255, 65] = [Char.ofNat 0xFFFD, 'A'] ∧
    ¬ ((("A").toList) = [Char.ofNat 0xFFFD, 'A']) := by
  refine ⟨?_, ?_, ?_, ?_⟩ <;> decide

/-- C7 (amended): for every byte sequence whose filename does not resolve to
the `.pdf` or `.docx` extension, extraction decodes the bytes as UTF-8 and,
when strict decoding fails, retries with the `ignore` handler — it never
fails, and invalid sequences are DROPPED (not replaced). -/
theorem C7_text_decode (pe : ParseEnv) (data : List Nat) (hint : List Char)
    (h1 : extFromName hint ≠ ((".pdf").toList))
    (h2 : extFromName hint ≠ ((".docx").toList)) :
    extract_text_from_bytes pe data hint = (utf8Fallback data, extFromName hint) ∧
    (pyDecodeStrict data = none →
      (extract_text_from_bytes pe data hint).1 = pyDecodeIgnore data) ∧
    (∀ s, pyDecodeStrict data = some s → (extract_text_from_bytes pe data hint).1 = s) := by
  have hmain : extract_text_from_bytes pe data hint = (utf8Fallback data, extFromName hint) := by
    unfold extract_text_from_bytes
    rw [if_neg (fun hc => h1 hc.1), if_neg (fun hc => h2 hc.1)]
  refine ⟨hmain, ?_, ?_⟩
  · intro hnone
    rw [hmain]
    unfold utf8Fallback
    rw [hnone]
  · intro s hs
    rw [hmain]
    unfold utf8Fallback
    rw [hs]

/-- Witness for `C7_text_decode` at the counterexample input. -/
theorem C7_text_decode_witness :
    extract_text_from_bytes ⟨true, true, fun _ => [], fun _ => []⟩ [255, 65]
      (("a.txt").toList) = (utf8Fallback [255, 65], extFromName (("a.txt").toList)) :=
  (C7_text_decode ⟨true, true, fun _ => [], fun _ => []⟩ [255, 65] (("a.txt").toList)
    (by decide) (by decide)).1

/-! ## C5 / C10 counterexamples: both sources supplied -/

/-- Counterexample to C5: a request supplying BOTH the inline upload and a
`file_url` is not rejected — it succeeds end to end (the inline bytes are
used). -/
theorem C5_both_sources_counterexample :
    optTruthy reqBoth.file_url = true ∧
    reqBoth.file ≠ none ∧
    translate_file cfgD envD passThroughTranslate reqBoth =
      .ok (.stream (utf8Encode (("Hello world").toList)) (("text/markdown").toList)
        (("hello.txt.translated.md").toList)) := by
  refine ⟨?_, ?_, ?_⟩ <;> decide

/-- Counterexample to C10 as frozen: when both sources are supplied but the
upload carries no multipart filename, the resolved filename is NOT the
upload filename — it falls back to the URL path tail `doc.txt`, visible in
the output attachment name. -/
theorem C10_no_upload_name_counterexample :
    reqNoName.file = some ⟨none, utf8Encode (("Hello world").toList)⟩ ∧
    translate_file cfgD envD passThroughTranslate reqNoName =
      .ok (.stream (utf8Encode (("Hello world").toList)) (("text/markdown").toList)
        (("doc.txt.translated.md").toList)) := by
  refine ⟨?_, ?_⟩ <;> decide

/-! ## C1: the byte ceiling on remote fetches -/

theorem optTruthy_some (u : List Char) (hu : u ≠ []) : optTruthy (some u) = true := by
  cases u with
  | nil => exact absurd rfl hu
  | cons c t => rfl

/-- Closed form of the streaming loop: starting from a running total
`read ≤ maxBytes`, the loop succeeds with the joined chunks iff the total
stays within the ceiling, and aborts with 413 otherwise. -/
theorem fetchLoop_eq (maxB : Nat) :
    ∀ (chunks : List (List Nat)) (read : Nat), read ≤ maxB →
      fetchLoop maxB chunks read =
        if read + (chunks.map List.length).sum ≤ maxB then .ok chunks.flatten
        else .error ⟨413, (("File too large").toList)⟩ := by
  intro chunks
  induction chunks with
  | nil =>
    intro read h
    rw [fetchLoop, if_pos (by simpa using h)]
    rfl
  | cons c cs ih =>
    intro read h
    simp only [List.map_cons, List.sum_cons, List.flatten_cons]
    by_cases hc : read + c.length > maxB
    · rw [fetchLoop, if_pos hc, if_neg (by omega)]
    · rw [fetchLoop, if_neg hc, ih (read + c.length) (by omega)]
      by_cases h2 : read + c.length + (cs.map List.length).sum ≤ maxB
      · rw [if_pos h2, if_pos (by omega)]
      · rw [if_neg h2, if_neg (by omega)]

/-- C1: (a) on an allowed host with a 200 GET, `fetch_bytes` returns the
joined stream when its total stays within the ceiling and aborts with 413
the moment the running total exceeds it; (b) consequently any bytes
`fetch_bytes` returns never exceed the ceiling; (c) in `translate_file`,
a HEAD-declared Content-Length above the ceiling is rejected with 413
whatever the GET oracle would have answered — i.e. before any GET is
consulted. -/
theorem C1_size_ceiling (cfg : Config) (env : Env)
    (tr : List Char → List Char → Option (List Char) → List Char → List Char)
    (req : Req) :
    (∀ url, env.hostAllowed url = true → env.getStatus = 200 →
      fetch_bytes env cfg.maxBytes url =
        if (env.getChunks.map List.length).sum ≤ cfg.maxBytes then .ok env.getChunks.flatten
        else .error ⟨413, (("File too large").toList)⟩) ∧
    (∀ url bs, fetch_bytes env cfg.maxBytes url = .ok bs → bs.length ≤ cfg.maxBytes) ∧
    (∀ u sz, ensure_auth cfg.apiKey req.authorization = .ok () →
      req.file_url = some u → u ≠ [] →
      (extFromName (resolveFilename env req) = [] ∨
        extFromName (resolveFilename env req) ∈ ALLOWED_EXTS) →
      env.hostAllowed u = true → env.headSize = some sz → sz > cfg.maxBytes →
      ∀ st ch gt,
        translate_file cfg { env with getStatus := st, getChunks := ch, getText := gt } tr req
          = .error ⟨413, (("File too large").toList)⟩) := by
  have hfetch : ∀ url, env.hostAllowed url = true → env.getStatus = 200 →
      fetch_bytes env cfg.maxBytes url =
        if (env.getChunks.map List.length).sum ≤ cfg.maxBytes then .ok env.getChunks.flatten
        else .error ⟨413, (("File too large").toList)⟩ := by
    intro url hhost hstatus
    unfold fetch_bytes
    rw [if_pos hhost, if_pos hstatus, fetchLoop_eq cfg.maxBytes env.getChunks 0 (Nat.zero_le _)]
    simp
  refine ⟨hfetch, ?_, ?_⟩
  · intro url bs h
    unfold fetch_bytes at h
    by_cases hhost : env.hostAllowed url = true
    · rw [if_pos hhost] at h
      by_cases hstatus : env.getStatus = 200
      · rw [if_pos hstatus,
          fetchLoop_eq cfg.maxBytes env.getChunks 0 (Nat.zero_le _)] at h
        by_cases hsum : 0 + (env.getChunks.map List.length).sum ≤ cfg.maxBytes
        · rw [if_pos hsum] at h
          cases h
          rw [List.length_flatten]
          omega
        · rw [if_neg hsum] at h
          exact absurd h (by simp)
      · rw [if_neg hstatus] at h
        exact absurd h (by simp)
    · rw [if_neg hhost] at h
      exact absurd h (by simp)
  · intro u sz hauth hu hune hext hhost hhead hsz st ch gt
    unfold translate_file
    rw [hauth]
    rw [if_neg (fun hcc => by
      rw [hu, optTruthy_some u hune] at hcc
      simp at hcc)]
    rw [if_neg (fun hcc => by
      rcases hext with hni | hmem
      · exact hcc.1 hni
      · exact hcc.2 hmem)]
    have hpre : urlPreChecks cfg { env with getStatus := st, getChunks := ch, getText := gt }
        req.file_url = .error ⟨413, (("File too large").toList)⟩ := by
      rw [hu]
      unfold urlPreChecks
      dsimp only
      rw [if_pos hune, if_pos hhost, hhead]
      dsimp only
      rw [if_pos (by omega)]
    rw [hpre]

/-- Witness for `C1_size_ceiling`: the both-sources request against an
environment whose HEAD probe declares one byte above the 50 MiB ceiling is
rejected with 413 regardless of the GET oracle. -/
theorem C1_size_ceiling_witness :
    translate_file cfgD
        { { envD with headSize := some (50 * 1024 * 1024 + 1) } with
          getStatus := 200, getChunks := [], getText := [] }
        passThroughTranslate reqBoth
      = .error ⟨413, (("File too large").toList)⟩ :=
  (C1_size_ceiling cfgD { envD with headSize := some (50 * 1024 * 1024 + 1) }
      passThroughTranslate reqBoth).2.2
    (("https://s3.amazonaws.com/x/doc.txt").toList) (50 * 1024 * 1024 + 1)
    (by decide) (by decide) (by decide) (by decide) (by decide) (by decide) (by decide)
    200 [] []

/-! ## Inversion helpers for the pipeline stages -/

theorem ensure_auth_error (apiKey : List Char) (a : Option (List Char)) (e : HttpErr)
    (h : ensure_auth apiKey a = .error e) : e.code = 401 ∨ e.code = 403 := by
  unfold ensure_auth at h
  repeat' split at h
  all_goals first
    | (injection h with h2; subst h2; simp)
    | simp at h

theorem urlPreChecks_error (cfg : Config) (env : Env) (fu : Option (List Char)) (e : HttpErr)
    (h : urlPreChecks cfg env fu = .error e) :
    e = ⟨413, (("File too large").toList)⟩ ∨ e = ⟨400, (("URL host not allowed").toList)⟩ := by
  unfold urlPreChecks at h
  repeat' split at h
  all_goals first
    | (injection h with h2; subst h2; simp)
    | simp at h

theorem fetchLoop_error (maxB : Nat) :
    ∀ (chunks : List (List Nat)) (read : Nat) (e : HttpErr),
      fetchLoop maxB chunks read = .error e → e = ⟨413, (("File too large").toList)⟩ := by
  intro chunks
  induction chunks with
  | nil => intro read e h; simp [fetchLoop] at h
  | cons c cs ih =>
    intro read e h
    rw [fetchLoop] at h
    split at h
    · injection h with h2; exact h2.symm
    · cases hrec : fetchLoop maxB cs (read + c.length) with
      | ok rest => rw [hrec] at h; simp at h
      | error e2 => rw [hrec] at h; injection h with h2; subst h2; exact ih _ _ hrec

theorem fetch_bytes_error (env : Env) (maxB : Nat) (url : List Char) (e : HttpErr)
    (h : fetch_bytes env maxB url = .error e) : e.code = 400 ∨ e.code = 413 := by
  unfold fetch_bytes at h
  split at h
  · split at h
    · right; rw [fetchLoop_error maxB env.getChunks 0 e h]
    · injection h with h2; subst h2; left; rfl
  · injection h with h2; subst h2; left; rfl

theorem sourceBytes_error (cfg : Config) (env : Env) (req : Req) (e : HttpErr)
    (h : sourceBytes cfg env req = .error e) : e.code = 400 ∨ e.code = 413 := by
  unfold sourceBytes at h
  split at h
  · split at h
    · injection h with h2; subst h2; right; rfl
    · simp at h
  · exact fetch_bytes_error env cfg.maxBytes _ e h

theorem sourceBytes_file_error (cfg : Config) (env : Env) (req : Req) (f : UploadFile)
    (hf : req.file = some f) (e : HttpErr) (h : sourceBytes cfg env req = .error e) :
    e = ⟨413, (("File too large").toList)⟩ := by
  simp only [sourceBytes, hf] at h
  split at h
  · injection h with h2; exact h2.symm
  · simp at h

theorem integrityCheck_error (env : Env) (req : Req) (raw : List Nat) (e : HttpErr)
    (h : integrityCheck env req raw = .error e) :
    e = ⟨400, (("Integrity hash mismatch").toList)⟩ := by
  unfold integrityCheck at h
  repeat' split at h
  all_goals first
    | (injection h with h2; exact h2.symm)
    | simp at h

theorem put_bytes_error (env : Env) (url : List Char) (data : List Nat) (ct : List Char)
    (e : HttpErr) (h : put_bytes env url data ct = .error e) :
    e.code = 400 ∧
      (e.detail = (("Output URL host not allowed").toList) ∨ e.detail.head? = some 'F') := by
  unfold put_bytes at h
  repeat' split at h
  all_goals first
    | (injection h with h2; subst h2; exact ⟨rfl, Or.inl rfl⟩)
    | (injection h with h2; subst h2; exact ⟨rfl, Or.inr rfl⟩)
    | simp at h

theorem do_work_error (cfg : Config) (env : Env)
    (tr : List Char → List Char → Option (List Char) → List Char → List Char)
    (req : Req) (raw : List Nat) (filename : List Char) (e : HttpErr)
    (h : do_work cfg env tr req raw filename = .error e) :
    e.code = 400 ∧
      (e.detail = (("Output URL host not allowed").toList) ∨ e.detail.head? = some 'F') := by
  simp only [do_work] at h
  split at h
  · split at h
    · split at h
      · simp at h
      · rename_i e2 heq
        injection h with h2
        subst h2
        exact put_bytes_error _ _ _ _ _ heq
    · simp at h
  · simp at h

theorem upToDot_none (l : List Char) (h : '.' ∉ l) : upToDot l = none := by
  induction l with
  | nil => rfl
  | cons c t ih =>
    rw [upToDot, if_neg (fun hc => h (by rw [← hc]; exact List.mem_cons_self c t)),
      ih (fun hm => h (List.mem_cons_of_mem c hm))]
    rfl

theorem extFromName_no_dot (name : List Char) (h : '.' ∉ name) : extFromName name = [] := by
  unfold extFromName
  rw [upToDot_none _ (by simpa using h)]

/-! ## C5: source multiplicity -/

/-- The both-sources request reaches a 200 end to end, so the frozen claim
that it "is also rejected" fails; what holds is that only the
neither-source case is rejected.  C5 (amended): an authorized request is
rejected with 400 (detail `Provide file_url or multipart file`) when
neither a truthy `file_url` nor an upload is present; when an upload is
present — in particular when BOTH sources are supplied — the request is
never rejected with that neither-source error (any rejection it may still
receive carries a different detail). -/
theorem C5_exactly_one_source (cfg : Config) (env : Env)
    (tr : List Char → List Char → Option (List Char) → List Char → List Char) (req : Req)
    (hauth : ensure_auth cfg.apiKey req.authorization = .ok ()) :
    ((¬ optTruthy req.file_url ∧ req.file = none) →
      translate_file cfg env tr req =
        .error ⟨400, (("Provide file_url or multipart file").toList)⟩) ∧
    (req.file ≠ none →
      ∀ e, translate_file cfg env tr req = .error e →
        e.detail ≠ (("Provide file_url or multipart file").toList)) := by
  constructor
  · intro hcond
    unfold translate_file
    rw [hauth, if_pos hcond]
  · intro hfile e h hdetail
    unfold translate_file at h
    split at h
    case _ ea heq0 =>
      rw [hauth] at heq0
      simp at heq0
    case _ w0 heq0 =>
    rw [if_neg (fun hcc => hfile hcc.2)] at h
    by_cases hext : extFromName (resolveFilename env req) ≠ [] ∧
        extFromName (resolveFilename env req) ∉ ALLOWED_EXTS
    · rw [if_pos hext] at h
      injection h with h2
      subst h2
      have hd2 : (("Unsupported file type: ").toList) ++ extFromName (resolveFilename env req)
          = (("Provide file_url or multipart file").toList) := hdetail
      have hcontra := congrArg List.head? hd2
      have hU : ((("Unsupported file type: ").toList)
          ++ extFromName (resolveFilename env req)).head? = some 'U' := rfl
      rw [hU] at hcontra
      exact absurd hcontra (by decide)
    · rw [if_neg hext] at h
      split at h
      · rename_i ep heq
        injection h with h2
        subst h2
        rcases urlPreChecks_error _ _ _ _ heq with h1 | h1 <;>
          (rw [h1] at hdetail; exact absurd hdetail (by decide))
      · split at h
        · rename_i es heq
          injection h with h2
          subst h2
          obtain ⟨f, hf⟩ : ∃ f, req.file = some f := by
            cases hr : req.file with
            | none => exact absurd hr hfile
            | some f => exact ⟨f, rfl⟩
          rw [sourceBytes_file_error cfg env req f hf _ heq] at hdetail
          exact absurd hdetail (by decide)
        · rename_i raw heq
          split at h
          · rename_i ei heq2
            injection h with h2
            subst h2
            rw [integrityCheck_error env req _ _ heq2] at hdetail
            exact absurd hdetail (by decide)
          · split at h
            · simp at h
            · split at h
              · rename_i ed heq3
                injection h with h2
                subst h2
                rcases do_work_error cfg env tr req _ _ _ heq3 with ⟨hc, hd | hd⟩
                · rw [hd] at hdetail
                  exact absurd hdetail (by decide)
                · rw [hdetail] at hd
                  exact absurd hd (by decide)
              · split at h
                · split at h <;> simp at h
                · simp at h

/-- The scenario request with no source at all. -/
def reqNeither : Req := { reqC6 with file := none }

/-- Witness for `C5_exactly_one_source`: the neither-source request is
rejected with the 400 neither-source error. -/
theorem C5_exactly_one_source_witness :
    translate_file cfgD envD passThroughTranslate reqNeither =
      .error ⟨400, (("Provide file_url or multipart file").toList)⟩ :=
  (C5_exactly_one_source cfgD envD passThroughTranslate reqNeither (by decide)).1 (by decide)

/-! ## C9: the 415 gate fires only on a non-empty disallowed extension -/

/-- C9: a 415 rejection can only arise from a resolved filename whose
extension is non-empty and outside the allow-list; a dotless resolved
filename is never rejected with 415; and extraction of a dotless filename
hint takes the UTF-8 branch (with the ignore-on-error fallback) and reports
the empty extension. -/
theorem C9_extension_gate (cfg : Config) (env : Env)
    (tr : List Char → List Char → Option (List Char) → List Char → List Char) (req : Req) :
    (∀ e, translate_file cfg env tr req = .error e → e.code = 415 →
      extFromName (resolveFilename env req) ≠ [] ∧
      extFromName (resolveFilename env req) ∉ ALLOWED_EXTS) ∧
    ('.' ∉ resolveFilename env req →
      ∀ e, translate_file cfg env tr req = .error e → e.code ≠ 415) ∧
    (∀ pe data hint, '.' ∉ hint →
      extract_text_from_bytes pe data hint = (utf8Fallback data, [])) := by
  have hmain : ∀ e, translate_file cfg env tr req = .error e → e.code = 415 →
      extFromName (resolveFilename env req) ≠ [] ∧
      extFromName (resolveFilename env req) ∉ ALLOWED_EXTS := by
    intro e h h415
    unfold translate_file at h
    split at h
    case _ ea heq0 =>
      injection h with h2
      subst h2
      rcases ensure_auth_error _ _ _ heq0 with hc | hc <;> omega
    case _ w0 heq0 =>
    by_cases hnone : ¬ optTruthy req.file_url ∧ req.file = none
    · rw [if_pos hnone] at h
      injection h with h2
      subst h2
      exact absurd h415 (by decide)
    · rw [if_neg hnone] at h
      by_cases hext : extFromName (resolveFilename env req) ≠ [] ∧
          extFromName (resolveFilename env req) ∉ ALLOWED_EXTS
      · exact hext
      · rw [if_neg hext] at h
        split at h
        · rename_i ep heq
          injection h with h2
          subst h2
          rcases urlPreChecks_error _ _ _ _ heq with h1 | h1 <;>
            (rw [h1] at h415; exact absurd h415 (by decide))
        · split at h
          · rename_i es heq
            injection h with h2
            subst h2
            rcases sourceBytes_error _ _ _ _ heq with hc | hc <;> omega
          · rename_i raw heq
            split at h
            · rename_i ei heq2
              injection h with h2
              subst h2
              rw [integrityCheck_error env req _ _ heq2] at h415
              exact absurd h415 (by decide)
            · split at h
              · simp at h
              · split at h
                · rename_i ed heq3
                  injection h with h2
                  subst h2
                  have := (do_work_error cfg env tr req _ _ _ heq3).1
                  omega
                · split at h
                  · split at h <;> simp at h
                  · simp at h
  refine ⟨hmain, ?_, ?_⟩
  · intro hnodot e h h415
    exact (hmain e h h415).1 (extFromName_no_dot _ hnodot)
  · intro pe data hint hnodot
    have hext := extFromName_no_dot hint hnodot
    unfold extract_text_from_bytes
    rw [hext]
    rw [if_neg (fun hc => absurd hc.1 (by decide))]
    rw [if_neg (fun hc => absurd hc.1 (by decide))]

/-- Witness for `C9_extension_gate`: a dotless filename hint is extracted on
the UTF-8 branch with the empty extension tag. -/
theorem C9_extension_gate_witness :
    extract_text_from_bytes ⟨false, false, fun _ => [], fun _ => []⟩ [104]
      (("noext").toList) = (utf8Fallback [104], []) :=
  (C9_extension_gate cfgD envD passThroughTranslate reqC6).2.2
    ⟨false, false, fun _ => [], fun _ => []⟩ [104] (("noext").toList) (by decide)

/-! ## C10: behaviour when both sources are supplied -/

/-- C10 (amended): with both an inline upload and a `file_url` present, the
response is independent of the GET oracle (no GET is consulted); the source
bytes are the inline upload bytes under the inline ceiling check; the
resolved filename is the upload filename WHEN the upload supplies a
non-empty one (the frozen claim omitted that proviso — see the
counterexample); and the `file_url` is still checked against the host
allow-list and its HEAD-declared size against the ceiling, either of which
rejects the request. -/
theorem C10_both_sources (cfg : Config) (env : Env)
    (tr : List Char → List Char → Option (List Char) → List Char → List Char) (req : Req)
    (f : UploadFile) (u : List Char) (hf : req.file = some f) (hu : req.file_url = some u) :
    (∀ st ch gt,
      translate_file cfg env tr req =
        translate_file cfg { env with getStatus := st, getChunks := ch, getText := gt } tr req) ∧
    (sourceBytes cfg env req =
      if f.content.length > cfg.maxBytes then .error ⟨413, (("File too large").toList)⟩
      else .ok f.content) ∧
    (∀ fn, f.filename = some fn → fn ≠ [] → resolveFilename env req = fn) ∧
    (ensure_auth cfg.apiKey req.authorization = .ok () →
      (extFromName (resolveFilename env req) = [] ∨
        extFromName (resolveFilename env req) ∈ ALLOWED_EXTS) →
      u ≠ [] →
      (env.hostAllowed u = false →
        translate_file cfg env tr req = .error ⟨400, (("URL host not allowed").toList)⟩) ∧
      (∀ sz, env.hostAllowed u = true → env.headSize = some sz → sz > cfg.maxBytes →
        translate_file cfg env tr req = .error ⟨413, (("File too large").toList)⟩)) := by
  refine ⟨?_, ?_, ?_, ?_⟩
  · intro st ch gt
    unfold translate_file sourceBytes
    rw [hf]
    rfl
  · simp only [sourceBytes, hf]
  · intro fn hfn hfn2
    simp only [resolveFilename, hf, hfn]
    rw [if_pos hfn2]
  · intro hauth hext hune
    constructor
    · intro hhost
      unfold translate_file
      rw [hauth]
      rw [if_neg (fun hcc => by rw [hf] at hcc; exact Option.noConfusion hcc.2)]
      rw [if_neg (fun hcc => by
        rcases hext with hni | hmem
        · exact hcc.1 hni
        · exact hcc.2 hmem)]
      have hpre : urlPreChecks cfg env req.file_url
          = .error ⟨400, (("URL host not allowed").toList)⟩ := by
        rw [hu]
        unfold urlPreChecks
        dsimp only
        rw [if_pos hune, if_neg (by simp [hhost])]
      rw [hpre]
    · intro sz hhost hhead hsz
      unfold translate_file
      rw [hauth]
      rw [if_neg (fun hcc => by rw [hf] at hcc; exact Option.noConfusion hcc.2)]
      rw [if_neg (fun hcc => by
        rcases hext with hni | hmem
        · exact hcc.1 hni
        · exact hcc.2 hmem)]
      have hpre : urlPreChecks cfg env req.file_url
          = .error ⟨413, (("File too large").toList)⟩ := by
        rw [hu]
        unfold urlPreChecks
        dsimp only
        rw [if_pos hune, if_pos hhost, hhead]
        dsimp only
        rw [if_pos (by omega)]
      rw [hpre]

/-- Witness for `C10_both_sources`: for the both-sources request whose
upload is named `hello.txt`, the resolved filename is the upload name. -/
theorem C10_both_sources_witness :
    resolveFilename envD reqBoth = (("hello.txt").toList) :=
  (C10_both_sources cfgD envD passThroughTranslate reqBoth
      ⟨some (("hello.txt").toList), utf8Encode (("Hello world").toList)⟩
      (("https://s3.amazonaws.com/x/doc.txt").toList) rfl rfl).2.2.1
    (("hello.txt").toList) rfl (by decide)

end SeaBridge
